import Mathlib

/-!
Verification of the two scripts in this repository.

* `src/process_truck.py` — loads an image, converts it to RGBA, and for every
  pixel whose red, green and blue channels each exceed 230 sets the alpha
  channel to 0, leaving all other pixels untouched.
* `src/update_task_def.py` — reads a task-definition ARN, an API key and a
  region from the environment, shells out to the AWS CLI to describe the task
  definition, strips a fixed list of metadata keys, replaces the
  GOOGLE_MAPS_API_KEY environment variable in the first container definition,
  and writes the result to `new_task_def.json`.

The image is modelled as a grid of RGBA pixels; the JSON data handled by the
updater is modelled by an inductive `Json` type whose objects are ordered
association lists, matching Python dict insertion order.  Effects of the
updater (printing, `sys.exit(1)`, unhandled exceptions, writing the output
file) are modelled by the `RunResult` outcome type.
-/

namespace Weelo

/-! ### Image model (`src/process_truck.py`) -/

/-- An RGBA pixel as produced by `img.convert('RGBA')`: four channels, each
in `0..255`.  Channel bounds are irrelevant to the transformation, so the
fields are plain naturals. -/
structure Pixel where
  r : Nat
  g : Nat
  b : Nat
  a : Nat
deriving DecidableEq

/-- Whether the pixel is "white or very light": `r > 230 and g > 230 and b > 230`
(line 16 of `process_truck.py`). -/
def isLight (p : Pixel) : Bool :=
  decide (p.r > 230) && decide (p.g > 230) && decide (p.b > 230)

/-- The body of the pixel loop (lines 14–17): on a light pixel the tuple
`(r, g, b, 0)` is stored back, otherwise the pixel is left alone. -/
def processPixel (p : Pixel) : Pixel :=
  if isLight p then Pixel.mk p.r p.g p.b 0 else p

/-- The double loop over `y in range(height)`, `x in range(width)`
(lines 12–17): every pixel of the grid is rewritten by `processPixel`.
The image is modelled as its list of rows. -/
def processImage (img : List (List Pixel)) : List (List Pixel) :=
  img.map (fun row => row.map processPixel)

/-! ### JSON model (`src/update_task_def.py`) -/

/-- JSON values as produced by `json.loads`.  Objects are ordered association
lists of string keys, matching Python dict insertion order (`json.loads`
yields unique keys; none of the results below depend on uniqueness). -/
inductive Json where
  | null : Json
  | bool : Bool → Json
  | num : Int → Json
  | str : String → Json
  | arr : List Json → Json
  | obj : List (String × Json) → Json

/-- Python truthiness of a JSON value, as used by `if not container_defs`
(line 50): `None`, `False`, `0`, `""`, `[]` and `{}` are falsy. -/
def pyTruthy : Json → Bool
  | .null => false
  | .bool b => b
  | .num n => decide (n ≠ 0)
  | .str s => decide (s ≠ "")
  | .arr l => !l.isEmpty
  | .obj f => !f.isEmpty

/-- `d[k]` / `d.get(k)` on a dict: the value at the first matching key. -/
def lookupKey : List (String × Json) → String → Option Json
  | [], _ => none
  | kv :: rest, k => if kv.1 = k then some kv.2 else lookupKey rest k

/-- `del d[k]`: remove the entry with key `k`. -/
def delKey (o : List (String × Json)) (k : String) : List (String × Json) :=
  o.filter (fun kv => kv.1 != k)

/-- Whether the dict has key `k` (`k in d`). -/
def hasKey (o : List (String × Json)) (k : String) : Bool :=
  o.any (fun kv => kv.1 == k)

/-- `d[k] = v` on a dict: overwrite in place if the key is present, keeping
its position, else append the new entry at the end. -/
def setKey (o : List (String × Json)) (k : String) (v : Json) :
    List (String × Json) :=
  if hasKey o k then o.map (fun kv => if kv.1 = k then (k, v) else kv)
  else o ++ [(k, v)]

/-! ### The updater script (`src/update_task_def.py`) -/

/-- The keys stripped before re-registration (lines 34–42). -/
def keys_to_remove : List String :=
  ["taskDefinitionArn", "revision", "status", "requiresAttributes",
   "compatibilities", "registeredAt", "registeredBy"]

/-- The loop `for key in keys_to_remove: if key in task_def: del task_def[key]`
(lines 44–46). -/
def removeKeys (o : List (String × Json)) : List String → List (String × Json)
  | [] => o
  | k :: ks => removeKeys (if hasKey o k then delKey o k else o) ks

/-- `e['name']`: the `name` field of an environment entry.  A non-object entry
or a missing `name` key raises (`TypeError` / `KeyError`), modelled as `none`. -/
def entryName : Json → Option Json
  | .obj fields => lookupKey fields "name"
  | _ => none

/-- Whether a `name` value equals the string `'GOOGLE_MAPS_API_KEY'`.  Python
`!=` between a string and a value of another type is `True`, so only a string
value can match. -/
def isGmapsName : Json → Bool
  | .str s => s == "GOOGLE_MAPS_API_KEY"
  | _ => false

/-- The list comprehension
`[e for e in env_vars if e['name'] != 'GOOGLE_MAPS_API_KEY']` (line 59).
`none` models the unhandled exception raised when some entry has no
`name` field (or is not an object). -/
def filterEnv : List Json → Option (List Json)
  | [] => some []
  | e :: rest =>
    match entryName e with
    | none => none
    | some n =>
      match filterEnv rest with
      | none => none
      | some kept => if isGmapsName n then some kept else some (e :: kept)

/-- The fresh entry appended at line 63:
`{'name': 'GOOGLE_MAPS_API_KEY', 'value': API_KEY}`. -/
def gmapsEntry (apiKey : String) : Json :=
  .obj [("name", .str "GOOGLE_MAPS_API_KEY"), ("value", .str apiKey)]

/-- Lines 56–68 applied to the first container definition: read its
`environment` list (default `[]`), filter out entries named
`GOOGLE_MAPS_API_KEY`, append the fresh entry, and store the list back.
`none` models an unhandled exception (non-dict container, non-list
environment, or an entry without a `name` field). -/
def updateContainer (c : Json) (apiKey : String) : Option Json :=
  match c with
  | .obj fields =>
    match (lookupKey fields "environment").getD (.arr []) with
    | .arr envVars =>
      match filterEnv envVars with
      | none => none
      | some kept =>
        some (.obj (setKey fields "environment"
          (.arr (kept ++ [gmapsEntry apiKey]))))
    | _ => none
  | _ => none

/-- Observable outcome of one run of `update_task_def.py`.  `sys.exit(1)`
happens on `earlyExit` (before the AWS CLI is invoked), `cmdFail` (the CLI
exited non-zero; its standard error was printed) and `dataExit` (after the
fetch, on missing data); `crash` is an unhandled exception; only `success`
writes `new_task_def.json`, and it carries the JSON written there. -/
inductive RunResult where
  | earlyExit (msg : String) : RunResult
  | cmdFail (stderr : String) : RunResult
  | dataExit (msg : String) : RunResult
  | crash : RunResult
  | success (out : Json) : RunResult

/-- Lines 31–50 applied to the extracted `task_def` object: strip
`keys_to_remove`, check `containerDefinitions`, rewrite the first container,
and serialize.  Mutating `container` in place and then `json.dump(task_def)`
is modelled by writing the updated containers back with `setKey` (the key
keeps its position, exactly as the in-place mutation leaves it). -/
def processTaskDef (td : Json) (apiKey : String) : RunResult :=
  match td with
  | .obj fields =>
    let cleaned := removeKeys fields keys_to_remove
    let cd := (lookupKey cleaned "containerDefinitions").getD (.arr [])
    if pyTruthy cd then
      match cd with
      | .arr (c :: rest) =>
        match updateContainer c apiKey with
        | none => .crash
        | some cNew =>
          .success (.obj (setKey cleaned "containerDefinitions"
            (.arr (cNew :: rest))))
      | _ => .crash
    else .dataExit "No container definitions found!"
  | _ => .crash

/-- `data['taskDefinition']` (line 31) followed by the rest of the script;
a missing key or a non-object `data` raises, modelled as `crash`. -/
def processData (data : Json) (apiKey : String) : RunResult :=
  match data with
  | .obj fields =>
    match lookupKey fields "taskDefinition" with
    | none => .crash
    | some td => processTaskDef td apiKey
  | _ => .crash

/-- Result of `subprocess.run` for the AWS CLI call: exit code, captured
standard output and standard error. -/
structure CmdResult where
  returncode : Int
  stdout : String
  stderr : String

/-- `run_command` (lines 10–16): on a non-zero exit code it prints the
command, prints the captured standard error and calls `sys.exit(1)`
(modelled as `Except.error stderr`); otherwise it returns the captured
standard output. -/
def run_command (res : CmdResult) : Except String String :=
  if res.returncode ≠ 0 then .error res.stderr else .ok res.stdout

/-- The whole script (lines 18–75).  `taskDefArn` and `apiKey` are the
`TASK_DEF_ARN` and `GOOGLE_MAPS_API_KEY` environment variables (defaulting to
`""`); `describe` is the behaviour of the external
`aws ecs describe-task-definition` command, consulted only after both inputs
validate; `parse` is `json.loads`, with `none` modelling a `ValueError`. -/
def runScript (taskDefArn apiKey : String) (describe : CmdResult)
    (parse : String → Option Json) : RunResult :=
  if taskDefArn = "" then
    .earlyExit "TASK_DEF_ARN is required. Example: arn:aws:ecs:region:acct:task-definition/name:rev"
  else if apiKey = "" then
    .earlyExit "GOOGLE_MAPS_API_KEY is required. Export it before running this script."
  else
    match run_command describe with
    | .error stderr => .cmdFail stderr
    | .ok out =>
      match parse out with
      | none => .crash
      | some data => processData data apiKey

/-! ### Accessors used to state the claims -/

/-- `j[k]` on an object, `none` on anything else. -/
def getKey (j : Json) (k : String) : Option Json :=
  match j with
  | .obj fields => lookupKey fields k
  | _ => none

/-- Whether an environment entry's `name` field is the string
`GOOGLE_MAPS_API_KEY`. -/
def isGmapsEntry (e : Json) : Bool :=
  match entryName e with
  | some n => isGmapsName n
  | none => false

/-- The `environment` list of the first container definition of a serialized
task definition. -/
def firstContainerEnv (out : Json) : Option (List Json) :=
  match getKey out "containerDefinitions" with
  | some (.arr (c :: _)) =>
    match getKey c "environment" with
    | some (.arr env) => some env
    | _ => none
  | _ => none

/-- The `containerDefinitions` list of a serialized task definition. -/
def containersOf (j : Json) : Option (List Json) :=
  match getKey j "containerDefinitions" with
  | some (.arr l) => some l
  | _ => none

/-! ### Concrete inputs used to evaluate the theorems -/

/-- A sample environment entry named `A`. -/
def envA : Json := .obj [("name", .str "A"), ("value", .str "1")]

/-- A sample environment entry named `B`. -/
def envB : Json := .obj [("name", .str "B"), ("value", .str "2")]

/-- A stale `GOOGLE_MAPS_API_KEY` environment entry. -/
def envG : Json := .obj [("name", .str "GOOGLE_MAPS_API_KEY"), ("value", .str "old")]

/-- A task definition carrying a metadata key and one bare container. -/
def tdC2 : List (String × Json) :=
  [("taskDefinitionArn", .str "a"), ("containerDefinitions", .arr [.obj []])]

/-- What the updater writes for `tdC2` with API key `K`. -/
def outC2 : List (String × Json) :=
  [("containerDefinitions", .arr [.obj [("environment", .arr [gmapsEntry "K"])]])]

/-- A task definition whose container has a stale key entry before another
entry. -/
def tdC3 : List (String × Json) :=
  [("containerDefinitions", .arr [.obj [("environment", .arr [envG, envA])]])]

/-- What the updater writes for `tdC3` with API key `K`. -/
def outC3 : List (String × Json) :=
  [("containerDefinitions",
    .arr [.obj [("environment", .arr [envA, gmapsEntry "K"])]])]

/-- A task definition with two containers. -/
def tdC8 : List (String × Json) :=
  [("containerDefinitions", .arr [.obj [], .obj [("name", .str "sidecar")]])]

/-- What the updater writes for `tdC8` with API key `K`. -/
def outC8 : List (String × Json) :=
  [("containerDefinitions",
    .arr [.obj [("environment", .arr [gmapsEntry "K"])],
          .obj [("name", .str "sidecar")]])]

/-- A task definition whose container has an environment entry without a
`name` field. -/
def tdC9 : List (String × Json) :=
  [("containerDefinitions",
    .arr [.obj [("environment", .arr [.obj [("value", .str "x")]])]])]

/-- A task definition whose container has three environment entries, the
stale key entry sitting in the middle. -/
def tdC10 : List (String × Json) :=
  [("containerDefinitions",
    .arr [.obj [("environment", .arr [envA, envG, envB])]])]

/-! ### Dictionary lemmas -/

/-- A key is absent exactly when no entry carries it. -/
theorem lookupKey_eq_none_iff (o : List (String × Json)) (k : String) :
    lookupKey o k = none ↔ ∀ kv ∈ o, kv.1 ≠ k := by
  induction o with
  | nil => simp [lookupKey]
  | cons kv rest ih =>
    by_cases h : kv.1 = k <;> simp [lookupKey, h, ih]

/-- Filtering entries out cannot make an absent key present. -/
theorem lookupKey_filter_none (o : List (String × Json))
    (p : String × Json → Bool) (k : String) (h : lookupKey o k = none) :
    lookupKey (o.filter p) k = none := by
  rw [lookupKey_eq_none_iff] at h ⊢
  intro kv hm
  exact h kv (List.mem_of_mem_filter hm)

/-- If the key never occurs, the Boolean membership test is false. -/
theorem lookupKey_of_hasKey_false (o : List (String × Json)) (k : String)
    (h : hasKey o k = false) : lookupKey o k = none := by
  rw [lookupKey_eq_none_iff]
  intro kv hm he
  have : o.any (fun kv => kv.1 == k) = true :=
    List.any_eq_true.mpr ⟨kv, hm, by simp [he]⟩
  rw [hasKey] at h
  rw [h] at this
  cases this

/-- `del d[k]` makes `k` absent. -/
theorem lookupKey_delKey_self (o : List (String × Json)) (k : String) :
    lookupKey (delKey o k) k = none := by
  rw [lookupKey_eq_none_iff]
  intro kv hm
  have := List.of_mem_filter hm
  simpa using this

/-- `del d[k2]` does not affect the value at a different key `k`. -/
theorem lookupKey_delKey_ne (o : List (String × Json)) (k k2 : String)
    (h : k ≠ k2) : lookupKey (delKey o k2) k = lookupKey o k := by
  induction o with
  | nil => rfl
  | cons kv rest ih =>
    simp only [delKey, List.filter_cons] at ih ⊢
    by_cases h2 : kv.1 = k2
    · have hk : kv.1 ≠ k := by
        rw [h2]
        exact fun e => h e.symm
      simp [h2, lookupKey, hk, Ne.symm h, ih]
    · have hb : (kv.1 != k2) = true := by simp [h2]
      simp only [hb, if_true, lookupKey, ih]

/-- Removing a list of keys does not affect a key outside the list. -/
theorem lookupKey_removeKeys_ne (o : List (String × Json)) (ks : List String)
    (k : String) (h : k ∉ ks) :
    lookupKey (removeKeys o ks) k = lookupKey o k := by
  induction ks generalizing o with
  | nil => rfl
  | cons k2 ks ih =>
    have hne : k ≠ k2 := fun e => h (e ▸ List.mem_cons_self k2 ks)
    have hnotin : k ∉ ks := fun m => h (List.mem_cons_of_mem _ m)
    by_cases hh : hasKey o k2 = true
    · simp only [removeKeys]
      rw [if_pos hh, ih _ hnotin, lookupKey_delKey_ne _ _ _ hne]
    · simp only [removeKeys]
      rw [if_neg hh, ih _ hnotin]

/-- Removing keys preserves the absence of any key. -/
theorem lookupKey_none_removeKeys (o : List (String × Json)) (ks : List String)
    (k : String) (h : lookupKey o k = none) :
    lookupKey (removeKeys o ks) k = none := by
  induction ks generalizing o with
  | nil => exact h
  | cons k2 ks ih =>
    by_cases hh : hasKey o k2 = true
    · simp only [removeKeys]
      rw [if_pos hh]
      exact ih _ (lookupKey_filter_none _ _ _ h)
    · simp only [removeKeys]
      rw [if_neg hh]
      exact ih _ h

/-- Every key in the removal list is absent afterwards. -/
theorem lookupKey_removeKeys_mem (o : List (String × Json)) (ks : List String)
    (k : String) (h : k ∈ ks) :
    lookupKey (removeKeys o ks) k = none := by
  induction ks generalizing o with
  | nil => cases h
  | cons k2 ks ih =>
    rcases List.mem_cons.mp h with rfl | hm
    · by_cases hh : hasKey o k = true
      · simp only [removeKeys]
        rw [if_pos hh]
        exact lookupKey_none_removeKeys _ _ _ (lookupKey_delKey_self o k)
      · simp only [removeKeys]
        rw [if_neg hh]
        exact lookupKey_none_removeKeys _ _ _
          (lookupKey_of_hasKey_false o k (by simpa using hh))
    · by_cases hh : hasKey o k2 = true
      · simp only [removeKeys]
        rw [if_pos hh]
        exact ih _ hm
      · simp only [removeKeys]
        rw [if_neg hh]
        exact ih _ hm

/-- Lookup over an appended dict: the left part wins when it has the key. -/
theorem lookupKey_append (o1 o2 : List (String × Json)) (k : String) :
    lookupKey (o1 ++ o2) k =
      match lookupKey o1 k with
      | some v => some v
      | none => lookupKey o2 k := by
  induction o1 with
  | nil => simp [lookupKey]
  | cons kv rest ih =>
    by_cases h1 : kv.1 = k <;> simp [lookupKey, h1, ih]

/-- The in-place overwrite branch of `setKey` yields the new value. -/
theorem lookupKey_map_set (o : List (String × Json)) (k : String) (v : Json)
    (hh : hasKey o k = true) :
    lookupKey (o.map (fun kv => if kv.1 = k then (k, v) else kv)) k
      = some v := by
  induction o with
  | nil => simp [hasKey] at hh
  | cons kv rest ih =>
    by_cases h1 : kv.1 = k
    · simp [lookupKey, h1]
    · have h2 : hasKey rest k = true := by
        simpa [hasKey, List.any_cons, h1] using hh
      simp [lookupKey, h1, ih h2]

/-- The in-place overwrite branch of `setKey` leaves other keys alone. -/
theorem lookupKey_map_set_ne (o : List (String × Json)) (k k2 : String)
    (v : Json) (h : k ≠ k2) :
    lookupKey (o.map (fun kv => if kv.1 = k2 then (k2, v) else kv)) k
      = lookupKey o k := by
  induction o with
  | nil => rfl
  | cons kv rest ih =>
    by_cases h1 : kv.1 = k2
    · have hk : kv.1 ≠ k := by
        rw [h1]
        exact fun e => h e.symm
      simp [lookupKey, h1, Ne.symm h, hk, ih]
    · simp [lookupKey, h1, ih]

/-- `d[k] = v` makes `k` map to `v`. -/
theorem lookupKey_setKey_self (o : List (String × Json)) (k : String)
    (v : Json) : lookupKey (setKey o k v) k = some v := by
  unfold setKey
  by_cases hh : hasKey o k = true
  · rw [if_pos hh]
    exact lookupKey_map_set o k v hh
  · rw [if_neg hh]
    rw [lookupKey_append,
      lookupKey_of_hasKey_false o k (by simpa using hh)]
    simp [lookupKey]

/-- `d[k2] = v` does not affect a different key `k`. -/
theorem lookupKey_setKey_ne (o : List (String × Json)) (k k2 : String)
    (v : Json) (h : k ≠ k2) :
    lookupKey (setKey o k2 v) k = lookupKey o k := by
  unfold setKey
  by_cases hh : hasKey o k2 = true
  · rw [if_pos hh]
    exact lookupKey_map_set_ne o k k2 v h
  · rw [if_neg hh]
    rw [lookupKey_append]
    cases hl : lookupKey o k with
    | some v2 => rfl
    | none => simp [lookupKey, Ne.symm h]

/-! ### Environment-filter lemmas -/

/-- The comprehension raises (is `none`) as soon as some entry has no
usable `name` field, wherever that entry sits in the list. -/
theorem filterEnv_none_of_bad (l : List Json) (e : Json) (he : e ∈ l)
    (hb : entryName e = none) : filterEnv l = none := by
  induction l with
  | nil => cases he
  | cons a rest ih =>
    rcases List.mem_cons.mp he with rfl | hm
    · simp [filterEnv, hb]
    · cases ha : entryName a with
      | none => simp [filterEnv, ha]
      | some n => simp [filterEnv, ha, ih hm]

/-- When the comprehension succeeds it is exactly the order-preserving
filter keeping the entries not named `GOOGLE_MAPS_API_KEY`. -/
theorem filterEnv_eq_filter (l : List Json) (kept : List Json)
    (h : filterEnv l = some kept) :
    kept = l.filter (fun e => !isGmapsEntry e) := by
  induction l generalizing kept with
  | nil =>
    simp only [filterEnv, Option.some_inj] at h
    simp [← h]
  | cons a rest ih =>
    cases ha : entryName a with
    | none => simp [filterEnv, ha] at h
    | some n =>
      cases hr : filterEnv rest with
      | none => simp [filterEnv, ha, hr] at h
      | some kept2 =>
        have hk2 := ih kept2 hr
        by_cases hg : isGmapsName n = true
        · have h2 : kept = kept2 := by
            simpa [filterEnv, ha, hr, hg] using h.symm
          have hge : isGmapsEntry a = true := by simp [isGmapsEntry, ha, hg]
          simp [List.filter_cons, hge, h2, hk2]
        · have h2 : kept = a :: kept2 := by
            simpa [filterEnv, ha, hr, hg] using h.symm
          have hge : isGmapsEntry a = false := by
            simp only [isGmapsEntry, ha]
            simpa using hg
          simp [List.filter_cons, hge, h2, hk2]

/-- No surviving entry of the comprehension is named `GOOGLE_MAPS_API_KEY`. -/
theorem filterEnv_mem_not_gmaps (l : List Json) (kept : List Json)
    (h : filterEnv l = some kept) (e : Json) (he : e ∈ kept) :
    isGmapsEntry e = false := by
  rw [filterEnv_eq_filter l kept h] at he
  have := List.of_mem_filter he
  simpa using this

/-- The surviving entries form a subsequence of the input list: their
relative order is preserved. -/
theorem filterEnv_sublist (l : List Json) (kept : List Json)
    (h : filterEnv l = some kept) : kept.Sublist l := by
  rw [filterEnv_eq_filter l kept h]
  exact List.filter_sublist l

/-- The injected entry is named `GOOGLE_MAPS_API_KEY`. -/
theorem isGmapsEntry_gmapsEntry (apiKey : String) :
    isGmapsEntry (gmapsEntry apiKey) = true := by
  simp [isGmapsEntry, gmapsEntry, entryName, lookupKey, isGmapsName]

/-! ### Inversion lemmas for the updater -/

/-- What a successful `updateContainer` tells us about its input and
output. -/
theorem updateContainer_some_inv (c : Json) (apiKey : String) (cNew : Json)
    (h : updateContainer c apiKey = some cNew) :
    ∃ cf env kept,
      c = .obj cf ∧
      (lookupKey cf "environment").getD (.arr []) = .arr env ∧
      filterEnv env = some kept ∧
      cNew = .obj (setKey cf "environment"
        (.arr (kept ++ [gmapsEntry apiKey]))) := by
  cases c with
  | obj cf =>
    cases hd : (lookupKey cf "environment").getD (.arr []) with
    | arr env =>
      cases hf : filterEnv env with
      | none => simp [updateContainer, hd, hf] at h
      | some kept =>
        refine ⟨cf, env, kept, rfl, hd, hf, ?_⟩
        have := h.symm
        simpa [updateContainer, hd, hf] using this
    | null => simp [updateContainer, hd] at h
    | bool b => simp [updateContainer, hd] at h
    | num n => simp [updateContainer, hd] at h
    | str s => simp [updateContainer, hd] at h
    | obj o2 => simp [updateContainer, hd] at h
  | null => simp [updateContainer] at h
  | bool b => simp [updateContainer] at h
  | num n => simp [updateContainer] at h
  | str s => simp [updateContainer] at h
  | arr l => simp [updateContainer] at h

/-- What a successful run of the post-fetch part of the script tells us:
the cleaned object had a non-empty `containerDefinitions` list, the first
container was rewritten, and the output is the cleaned object with the
updated container list written back in place. -/
theorem processTaskDef_success_inv (td : List (String × Json))
    (apiKey : String) (out : Json)
    (h : processTaskDef (.obj td) apiKey = .success out) :
    ∃ c rest cNew,
      lookupKey (removeKeys td keys_to_remove) "containerDefinitions"
        = some (.arr (c :: rest)) ∧
      updateContainer c apiKey = some cNew ∧
      out = .obj (setKey (removeKeys td keys_to_remove)
        "containerDefinitions" (.arr (cNew :: rest))) := by
  cases hcd : lookupKey (removeKeys td keys_to_remove) "containerDefinitions" with
  | none => simp [processTaskDef, hcd, pyTruthy] at h
  | some cd =>
    cases cd with
    | arr l =>
      cases l with
      | nil => simp [processTaskDef, hcd, pyTruthy] at h
      | cons c rest =>
        cases hu : updateContainer c apiKey with
        | none => simp [processTaskDef, hcd, pyTruthy, hu] at h
        | some cNew =>
          refine ⟨c, rest, cNew, rfl, hu, ?_⟩
          have := h.symm
          simpa [processTaskDef, hcd, pyTruthy, hu] using this
    | null => simp [processTaskDef, hcd, pyTruthy] at h
    | bool b =>
      cases b with
      | false => simp [processTaskDef, hcd, pyTruthy] at h
      | true => simp [processTaskDef, hcd, pyTruthy] at h
    | num n =>
      by_cases hn : n = 0
      · simp [processTaskDef, hcd, pyTruthy, hn] at h
      · simp [processTaskDef, hcd, pyTruthy, hn] at h
    | str s =>
      by_cases hs : s = ""
      · simp [processTaskDef, hcd, pyTruthy, hs] at h
      · simp [processTaskDef, hcd, pyTruthy, hs] at h
    | obj o2 =>
      cases o2 with
      | nil => simp [processTaskDef, hcd, pyTruthy] at h
      | cons kv o3 => simp [processTaskDef, hcd, pyTruthy] at h

/-! ### Pixel lemmas -/

/-- A light pixel (all of red, green, blue above 230) is stored back with the
same colour channels and alpha 0. -/
theorem processPixel_light (p : Pixel)
    (h : p.r > 230 ∧ p.g > 230 ∧ p.b > 230) :
    processPixel p = Pixel.mk p.r p.g p.b 0 := by
  simp [processPixel, isLight, h.1, h.2.1, h.2.2]

/-- A pixel that is not light is left unchanged. -/
theorem processPixel_dark (p : Pixel)
    (h : ¬(p.r > 230 ∧ p.g > 230 ∧ p.b > 230)) :
    processPixel p = p := by
  unfold processPixel isLight
  split
  · rename_i hl
    have hl2 : (230 < p.r ∧ 230 < p.g) ∧ 230 < p.b := by simpa using hl
    exact absurd ⟨hl2.1.1, hl2.1.2, hl2.2⟩ h
  · rfl

/-- Rewriting a pixel a second time changes nothing: the colour channels are
preserved by the first pass, so the light test gives the same answer. -/
theorem processPixel_idem (p : Pixel) :
    processPixel (processPixel p) = processPixel p := by
  by_cases h : isLight p
  · have hsame : isLight (Pixel.mk p.r p.g p.b 0) = isLight p := by
      simp [isLight]
    simp [processPixel, h, hsame]
  · simp [processPixel, h]

/-- A map pairs each element with its image. -/
theorem forall₂_map_of_forall {α β : Type} (f : α → β) (R : α → β → Prop)
    (h : ∀ a, R a (f a)) : ∀ l : List α, List.Forall₂ R l (l.map f)
  | [] => List.Forall₂.nil
  | a :: as => List.Forall₂.cons (h a) (forall₂_map_of_forall f R h as)

/-- One row rewritten twice equals the row rewritten once. -/
theorem processRow_idem (row : List Pixel) :
    (row.map processPixel).map processPixel = row.map processPixel := by
  induction row with
  | nil => rfl
  | cons p ps ih => simp only [List.map_cons, processPixel_idem, ih]

/-- C1: for every pixel of the converted image, if its red, green and blue
channels are each greater than 230 the output pixel keeps the same red,
green and blue values and has alpha 0, and every other pixel is identical to
the input pixel in all four channels.  Stated by pairing every input pixel
with the corresponding output pixel via `Forall₂`. -/
theorem c1_pixel_transform (img : List (List Pixel)) :
    List.Forall₂ (List.Forall₂ (fun p q =>
        (p.r > 230 ∧ p.g > 230 ∧ p.b > 230 → q = Pixel.mk p.r p.g p.b 0) ∧
        (¬(p.r > 230 ∧ p.g > 230 ∧ p.b > 230) → q = p)))
      img (processImage img) := by
  apply forall₂_map_of_forall
  intro row
  apply forall₂_map_of_forall
  intro p
  exact ⟨processPixel_light p, processPixel_dark p⟩

/-- C7: the image conversion is idempotent — applying the pixel
transformation to its own output yields the same image. -/
theorem c7_process_idempotent (img : List (List Pixel)) :
    processImage (processImage img) = processImage img := by
  unfold processImage
  rw [List.map_map]
  apply List.map_congr_left
  intro row _
  exact processRow_idem row

/-! ### Claims about the updater -/

/-- No key of the removal list is `containerDefinitions`. -/
theorem keys_to_remove_ne_cd (k : String) (hk : k ∈ keys_to_remove) :
    k ≠ "containerDefinitions" := by
  simp only [keys_to_remove, List.mem_cons, List.not_mem_nil, or_false] at hk
  rcases hk with rfl | rfl | rfl | rfl | rfl | rfl | rfl <;> decide

/-- C2 (as stated, refuted): the removal list of `update_task_def.py`
contains seven metadata keys, not nine. -/
theorem c2_seven_not_nine_keys :
    keys_to_remove.length = 7 ∧ ¬keys_to_remove.length = 9 := by
  constructor
  · rfl
  · intro h
    simp [keys_to_remove] at h

/-- C2 (amended): the seven metadata keys of the removal list are deleted
from the extracted task-definition object when present, and none of the
seven appears in the serialized output. -/
theorem c2_metadata_removed (td : List (String × Json)) (apiKey : String)
    (out : List (String × Json))
    (h : processTaskDef (.obj td) apiKey = .success (.obj out)) :
    (∀ k ∈ keys_to_remove,
      lookupKey (removeKeys td keys_to_remove) k = none) ∧
    ∀ k ∈ keys_to_remove, lookupKey out k = none := by
  constructor
  · intro k hk
    exact lookupKey_removeKeys_mem td keys_to_remove k hk
  · intro k hk
    obtain ⟨c, rest, cNew, hcd, hu, hout⟩ :=
      processTaskDef_success_inv td apiKey _ h
    injection hout with ho
    rw [ho, lookupKey_setKey_ne _ _ _ _ (keys_to_remove_ne_cd k hk)]
    exact lookupKey_removeKeys_mem td keys_to_remove k hk

/-- Witness for C2 (amended): on `tdC2` the metadata key is gone from the
written object. -/
theorem c2_metadata_removed_witness : lookupKey outC2 "taskDefinitionArn" = none :=
  (c2_metadata_removed tdC2 "K" outC2 rfl).2 "taskDefinitionArn"
    (by simp [keys_to_remove])

/-- C3: in the written task definition, the first container's environment
list contains exactly one entry named `GOOGLE_MAPS_API_KEY`, and that entry
carries the provided API key value, however many entries with that name the
input had. -/
theorem c3_unique_api_key_entry (td : List (String × Json)) (apiKey : String)
    (out : Json) (env : List Json)
    (h : processTaskDef (.obj td) apiKey = .success out)
    (henv : firstContainerEnv out = some env) :
    env.filter (fun e => isGmapsEntry e) = [gmapsEntry apiKey] := by
  obtain ⟨c, rest, cNew, hcd, hu, hout⟩ :=
    processTaskDef_success_inv td apiKey _ h
  obtain ⟨cf, env0, kept, hc, hd, hf, hnew⟩ :=
    updateContainer_some_inv c apiKey cNew hu
  subst hout hnew
  simp only [firstContainerEnv, getKey, lookupKey_setKey_self] at henv
  have henv2 : env = kept ++ [gmapsEntry apiKey] := by
    simpa using henv.symm
  subst henv2
  rw [List.filter_append]
  have h1 : kept.filter (fun e => isGmapsEntry e) = [] := by
    rw [List.filter_eq_nil_iff]
    intro e he hge
    rw [filterEnv_mem_not_gmaps env0 kept hf e he] at hge
    cases hge
  rw [h1]
  simp [isGmapsEntry_gmapsEntry]

/-- Witness for C3: the output environment of `tdC3` filtered by the key
name is exactly the injected entry. -/
theorem c3_unique_api_key_entry_witness :
    [envA, gmapsEntry "K"].filter (fun e => isGmapsEntry e)
      = [gmapsEntry "K"] :=
  c3_unique_api_key_entry tdC3 "K" (.obj outC3) [envA, gmapsEntry "K"] rfl rfl

/-- C4: when the fetched task definition's `containerDefinitions` list is
empty or absent, the run ends with `sys.exit(1)` after printing the
diagnostic, and no output is written (the result is not `success`). -/
theorem c4_no_containers_exit (td : List (String × Json)) (apiKey : String)
    (h : lookupKey td "containerDefinitions" = none ∨
         lookupKey td "containerDefinitions" = some (.arr [])) :
    processTaskDef (.obj td) apiKey
        = .dataExit "No container definitions found!" ∧
    ∀ out, processTaskDef (.obj td) apiKey ≠ .success out := by
  have hcd : lookupKey (removeKeys td keys_to_remove) "containerDefinitions"
      = lookupKey td "containerDefinitions" :=
    lookupKey_removeKeys_ne td keys_to_remove _ (by decide)
  have hmain : processTaskDef (.obj td) apiKey
      = .dataExit "No container definitions found!" := by
    rcases h with h | h <;> simp [processTaskDef, hcd, h, pyTruthy]
  refine ⟨hmain, fun out hc => ?_⟩
  rw [hmain] at hc
  cases hc

/-- Witness for C4: a task definition without `containerDefinitions`. -/
theorem c4_no_containers_exit_witness :
    processTaskDef (.obj [("family", Json.str "f")]) "K"
      = .dataExit "No container definitions found!" :=
  (c4_no_containers_exit [("family", Json.str "f")] "K" (Or.inl rfl)).1

/-- C5: with an empty ARN or an empty API key the script exits early with
the message naming the missing input, and the outcome does not depend on
the external command or on the JSON parser — the AWS CLI is never
consulted. -/
theorem c5_validation_before_fetch (arn key : String) (d1 d2 : CmdResult)
    (p1 p2 : String → Option Json) (h : arn = "" ∨ key = "") :
    (arn = "" → runScript arn key d1 p1 = .earlyExit
      "TASK_DEF_ARN is required. Example: arn:aws:ecs:region:acct:task-definition/name:rev") ∧
    (arn ≠ "" → key = "" → runScript arn key d1 p1 = .earlyExit
      "GOOGLE_MAPS_API_KEY is required. Export it before running this script.") ∧
    runScript arn key d1 p1 = runScript arn key d2 p2 := by
  refine ⟨?_, ?_, ?_⟩
  · intro ha
    subst ha
    rfl
  · intro ha hk
    subst hk
    simp [runScript, ha]
  · rcases h with rfl | rfl
    · rfl
    · by_cases ha : arn = ""
      · subst ha
        rfl
      · simp [runScript, ha]

/-- Witness for C5: empty ARN. -/
theorem c5_validation_before_fetch_witness :
    runScript "" "k" (CmdResult.mk 0 "" "") (fun _ => none) = .earlyExit
      "TASK_DEF_ARN is required. Example: arn:aws:ecs:region:acct:task-definition/name:rev" :=
  (c5_validation_before_fetch "" "k" (CmdResult.mk 0 "" "")
    (CmdResult.mk 1 "o" "e") (fun _ => none) (fun _ => none) (Or.inl rfl)).1 rfl

/-- C6: when the describe command exits non-zero, the script prints its
standard error and exits with status 1 (`cmdFail` carries the printed
stderr), and no task-definition data is written. -/
theorem c6_cmd_failure (arn key : String) (d : CmdResult)
    (p : String → Option Json)
    (h1 : arn ≠ "") (h2 : key ≠ "") (h3 : d.returncode ≠ 0) :
    runScript arn key d p = .cmdFail d.stderr ∧
    ∀ out, runScript arn key d p ≠ .success out := by
  have hmain : runScript arn key d p = .cmdFail d.stderr := by
    simp [runScript, h1, h2, run_command, h3]
  refine ⟨hmain, fun out hc => ?_⟩
  rw [hmain] at hc
  cases hc

/-- Witness for C6: a failing describe command with stderr `boom`. -/
theorem c6_cmd_failure_witness :
    runScript "a" "k" (CmdResult.mk 1 "" "boom") (fun _ => none)
      = .cmdFail "boom" :=
  (c6_cmd_failure "a" "k" (CmdResult.mk 1 "" "boom") (fun _ => none)
    (by decide) (by decide) (by decide)).1

/-- C8: only the first container definition is modified — in the written
task definition the containers after the first are exactly the input's, and
the list keeps its length. -/
theorem c8_other_containers_unchanged (td : List (String × Json))
    (apiKey : String) (out c : Json) (rest : List Json)
    (h : processTaskDef (.obj td) apiKey = .success out)
    (hcd : lookupKey td "containerDefinitions" = some (.arr (c :: rest))) :
    (containersOf out).map List.tail = some rest ∧
    (containersOf out).map List.length = some (rest.length + 1) := by
  obtain ⟨c0, rest0, cNew, hcd0, hu, hout⟩ :=
    processTaskDef_success_inv td apiKey _ h
  rw [lookupKey_removeKeys_ne td keys_to_remove _ (by decide), hcd] at hcd0
  injection hcd0 with harr
  injection harr with hl
  injection hl with hc hrest
  subst hout
  simp [containersOf, getKey, lookupKey_setKey_self, hrest]

/-- Witness for C8: the sidecar container of `tdC8` survives unchanged. -/
theorem c8_other_containers_unchanged_witness :
    (containersOf (.obj outC8)).map List.tail
      = some [Json.obj [("name", Json.str "sidecar")]] :=
  (c8_other_containers_unchanged tdC8 "K" (.obj outC8) (.obj [])
    [Json.obj [("name", Json.str "sidecar")]] rfl rfl).1

/-- C9: an environment entry without a `name` field makes the run end in an
unhandled `KeyError` (`crash`), not in one of the diagnosed `sys.exit(1)`
paths. -/
theorem c9_missing_name_crashes (td : List (String × Json)) (apiKey : String)
    (cf : List (String × Json)) (cs : List Json) (env : List Json) (e : Json)
    (hcd : lookupKey td "containerDefinitions"
      = some (.arr (.obj cf :: cs)))
    (henv : lookupKey cf "environment" = some (.arr env))
    (he : e ∈ env) (hb : entryName e = none) :
    processTaskDef (.obj td) apiKey = .crash ∧
    (∀ msg, processTaskDef (.obj td) apiKey ≠ .dataExit msg) ∧
    ∀ msg, processTaskDef (.obj td) apiKey ≠ .earlyExit msg := by
  have hcd0 : lookupKey (removeKeys td keys_to_remove) "containerDefinitions"
      = some (.arr (.obj cf :: cs)) := by
    rw [lookupKey_removeKeys_ne td keys_to_remove _ (by decide)]
    exact hcd
  have hu : updateContainer (.obj cf) apiKey = none := by
    simp [updateContainer, henv, filterEnv_none_of_bad env e he hb]
  have hmain : processTaskDef (.obj td) apiKey = .crash := by
    simp [processTaskDef, hcd0, pyTruthy, hu]
  refine ⟨hmain, fun msg hc => ?_, fun msg hc => ?_⟩ <;> rw [hmain] at hc <;>
    cases hc

/-- Witness for C9: the nameless entry of `tdC9` crashes the run. -/
theorem c9_missing_name_crashes_witness :
    processTaskDef (.obj tdC9) "K" = .crash :=
  (c9_missing_name_crashes tdC9 "K"
    [("environment", .arr [.obj [("value", .str "x")]])] []
    [.obj [("value", .str "x")]] (.obj [("value", .str "x")])
    rfl rfl (by simp) rfl).1

/-- C10: in the written first container, the surviving environment entries
are the input entries not named `GOOGLE_MAPS_API_KEY` in their original
relative order (an order-preserving filter, hence a subsequence of the
input), and the injected entry is the last element of the list. -/
theorem c10_order_preserved_append_last (td : List (String × Json))
    (apiKey : String) (out : Json) (cf : List (String × Json))
    (cs : List Json) (envIn envOut : List Json)
    (h : processTaskDef (.obj td) apiKey = .success out)
    (hcd : lookupKey td "containerDefinitions"
      = some (.arr (.obj cf :: cs)))
    (henvIn : lookupKey cf "environment" = some (.arr envIn))
    (henvOut : firstContainerEnv out = some envOut) :
    envOut.dropLast = envIn.filter (fun e => !isGmapsEntry e) ∧
    envOut.dropLast.Sublist envIn ∧
    envOut.getLast? = some (gmapsEntry apiKey) := by
  obtain ⟨c0, rest0, cNew, hcd0, hu, hout⟩ :=
    processTaskDef_success_inv td apiKey _ h
  rw [lookupKey_removeKeys_ne td keys_to_remove _ (by decide), hcd] at hcd0
  injection hcd0 with harr
  injection harr with hl
  injection hl with hc hrest
  obtain ⟨cf0, env0, kept, hc0, hd, hf, hnew⟩ :=
    updateContainer_some_inv c0 apiKey cNew hu
  rw [← hc] at hc0
  injection hc0 with hcf
  subst hcf
  rw [henvIn] at hd
  simp only [Option.getD_some] at hd
  injection hd with henv0
  subst henv0
  subst hout hnew
  simp only [firstContainerEnv, getKey, lookupKey_setKey_self] at henvOut
  injection henvOut with henv2
  subst henv2
  have hkept := filterEnv_eq_filter envIn kept hf
  refine ⟨?_, ?_, ?_⟩
  · rw [List.dropLast_concat]
    exact hkept
  · rw [List.dropLast_concat, hkept]
    exact List.filter_sublist envIn
  · rw [List.getLast?_concat]

/-- Witness for C10: on `tdC10` the injected entry comes last. -/
theorem c10_order_preserved_append_last_witness :
    [envA, envB, gmapsEntry "K"].getLast? = some (gmapsEntry "K") :=
  (c10_order_preserved_append_last tdC10 "K"
    (.obj [("containerDefinitions",
      .arr [.obj [("environment", .arr [envA, envB, gmapsEntry "K"])]])])
    [("environment", .arr [envA, envG, envB])] [] [envA, envG, envB]
    [envA, envB, gmapsEntry "K"] rfl rfl rfl rfl).2.2

end Weelo
